import Mathlib

/-!
Shallow embedding of the "On This Day" chronology index (ATW repository).

The embedded code lives in `src/src/utils.py` (date extraction, catalogue
store, calendar matcher) and `src/src/fetch_videos.py` (ingestion).
Python values are modelled as follows: machine-level `datetime` objects
become a `Date` structure of naturals; JSON dictionaries become Lean
structures; `None`-able fields become `Option`; raised exceptions become
`Except`; the on-disk state touched by the store becomes an explicit
record of the primary file and its `.backup` sibling.
-/

namespace ATW

/-- A calendar date, the relevant content of a Python `datetime` for this
program (the code only ever inspects `.year`, `.month`, `.day` and formats
with `%Y-%m-%d`). -/
structure Date where
  year : Nat
  month : Nat
  day : Nat
deriving DecidableEq, Repr

/-- Gregorian leap-year rule, as used by Python's `datetime` validation. -/
def isLeapYear (y : Nat) : Bool :=
  y % 4 == 0 && (y % 100 != 0 || y % 400 == 0)

/-- Length of a month, as used by Python's `datetime` validation. -/
def daysInMonth (y m : Nat) : Nat :=
  if m == 2 then (if isLeapYear y then 29 else 28)
  else if m == 4 || m == 6 || m == 9 || m == 11 then 30
  else 31

/-- Validity of a calendar date under Python's `datetime` constructor
(year between `MINYEAR = 1` and `MAXYEAR = 9999`). -/
def Date.valid (d : Date) : Bool :=
  decide (1 ≤ d.year) && decide (d.year ≤ 9999) &&
  decide (1 ≤ d.month) && decide (d.month ≤ 12) &&
  decide (1 ≤ d.day) && decide (d.day ≤ daysInMonth d.year d.month)

/-- Digit test on a character by code point (`'0'` is 48, `'9'` is 57). -/
def isDigitChar (c : Char) : Bool :=
  decide (48 ≤ c.toNat) && decide (c.toNat ≤ 57)

/-- Numeric value of a digit character. -/
def dval (c : Char) : Nat := c.toNat - 48

/-- Character-level workhorse of `fromisoformat`: accepts exactly the
ten-character `YYYY-MM-DD` shape denoting a valid calendar date. -/
def parseChars : List Char → Option Date
  | [y1, y2, y3, y4, h1, m1, m2, h2, d1, d2] =>
    if isDigitChar y1 && isDigitChar y2 && isDigitChar y3 && isDigitChar y4 &&
        h1 == '-' && isDigitChar m1 && isDigitChar m2 && h2 == '-' &&
        isDigitChar d1 && isDigitChar d2 then
      if Date.valid ⟨dval y1 * 1000 + dval y2 * 100 + dval y3 * 10 + dval y4,
          dval m1 * 10 + dval m2, dval d1 * 10 + dval d2⟩ then
        some ⟨dval y1 * 1000 + dval y2 * 100 + dval y3 * 10 + dval y4,
          dval m1 * 10 + dval m2, dval d1 * 10 + dval d2⟩
      else none
    else none
  | _ => none

/-- Model of `datetime.fromisoformat` on the date-only ISO strings this
repository stores (`recording_date` is always written with
`strftime('%Y-%m-%d')` or as `publishedAt[:10]`): parses `YYYY-MM-DD`
into a valid calendar date, and fails (`ValueError`, modelled as `none`)
on every other string. -/
def fromisoformat (s : String) : Option Date := parseChars s.toList

/-- A catalogue entry, the dictionary built in
`fetch_videos.fetch_all_videos_from_playlist`.  `recording_date` is
`Option` because the code stores `None` when no date is available. -/
structure Video where
  video_id : String
  title : String
  description : String
  upload_date : String
  recording_date : Option String
  url : String
  thumbnail : String
deriving DecidableEq, Repr

/-- Channel metadata dictionary.  `uploads_playlist_id` and `total_videos`
are `Option` because the placeholder structure in `load_videos_db` omits
those keys. -/
structure ChannelInfo where
  channel_id : String
  channel_name : String
  channel_handle : String
  uploads_playlist_id : Option String := none
  total_videos : Option Nat := none
  last_updated : Option String := none
deriving DecidableEq, Repr

/-- The videos database: the two top-level fields of `data/videos.json`. -/
structure VideosDb where
  channel_info : ChannelInfo
  videos : List Video
deriving DecidableEq, Repr

/-- The loop-body test of `get_videos_for_date`: the record has a truthy
`recording_date` whose `fromisoformat` parse succeeds with the queried
month and day; a `ValueError` from parsing is caught and treated as
non-matching (`continue`). -/
def matchesDate (month day : Nat) (v : Video) : Bool :=
  match v.recording_date with
  | none => false
  | some s =>
    if s.isEmpty then false
    else
      match fromisoformat s with
      | some d => decide (d.month = month) && decide (d.day = day)
      | none => false

/-- The sort key of `get_videos_for_date`: `v.get('recording_date', '')`. -/
def recKey (v : Video) : String := v.recording_date.getD ""

/-- Python string comparison on the key lists: lexicographic by code
point.  `chListLe s t` models `not (t < s)`, i.e. `s <= t`. -/
def chListLe : List Char → List Char → Bool
  | [], _ => true
  | _ :: _, [] => false
  | a :: as, b :: bs =>
    if a.toNat < b.toNat then true
    else if b.toNat < a.toNat then false
    else chListLe as bs

/-- Key comparison used to model `matching_videos.sort(key=...)`. -/
def keyLe (a b : Video) : Bool :=
  chListLe (recKey a).toList (recKey b).toList

/-- The accumulation loop of `get_videos_for_date`:
`for video in videos: if <matches>: matching_videos.append(video)`. -/
def matchLoop (month day : Nat) (acc : List Video) : List Video → List Video
  | [] => acc
  | v :: vs =>
    if matchesDate month day v then matchLoop month day (acc ++ [v]) vs
    else matchLoop month day acc vs

/-- `utils.get_videos_for_date`: collect the records matching the queried
month/day, then sort ascending by the `recording_date` string (Python's
`list.sort` is a stable ascending sort; `List.mergeSort` is the stable
ascending sort of the Lean library). -/
def get_videos_for_date (db : VideosDb) (month day : Nat) : List Video :=
  (matchLoop month day [] db.videos).mergeSort keyLe

/-- Year of a record's parsed `recording_date` (0 when absent or
unparseable); used only to state the oldest-year-first property. -/
def recYear (v : Video) : Nat :=
  match v.recording_date with
  | some s =>
    match fromisoformat s with
    | some d => d.year
    | none => 0
  | none => 0

/-- State-threaded translation of `get_videos_for_date` for the frame
claim: every statement of the function reads the database argument and
writes only the fresh local list `matching_videos`, so the loop threads
the database state and the accumulator explicitly. -/
def matchLoopSt (month day : Nat) : VideosDb × List Video → List Video → VideosDb × List Video
  | (st, acc), [] => (st, acc)
  | (st, acc), v :: vs =>
    if matchesDate month day v then matchLoopSt month day (st, acc ++ [v]) vs
    else matchLoopSt month day (st, acc) vs

/-- `utils.get_videos_for_date` with the database threaded as explicit
state: the returned first component is the database as left behind by the
call (the in-place `matching_videos.sort(...)` mutates only the local
list built by the loop). -/
def get_videos_for_date_st (st : VideosDb) (month day : Nat) : VideosDb × List Video :=
  let p := matchLoopSt month day (st, []) st.videos
  (p.1, p.2.mergeSort keyLe)

/-! ## Catalogue store (`load_videos_db`, `save_videos_db`, `create_backup`)

Serialization is modelled as storing the structured value itself:
`json.dump` followed by `json.load` is a faithful round trip on these
string/list/dict records, so a readable file holds a `VideosDb`, and a
file whose content `json.load` cannot parse is `corrupt`. -/

/-- Content of an on-disk JSON file: either a parseable videos database
or bytes that `json.load` rejects with a `JSONDecodeError`. -/
inductive FileData where
  | valid (db : VideosDb)
  | corrupt
deriving DecidableEq, Repr

/-- The on-disk state the store touches: `data/videos.json` and its
sibling `data/videos.json.backup` (absent files are `none`). -/
structure FS where
  primary : Option FileData
  backup : Option FileData
deriving DecidableEq, Repr

/-- The placeholder database that `load_videos_db` returns when
`data/videos.json` does not exist. -/
def emptyDb : VideosDb :=
  { channel_info :=
      { channel_id := ""
        channel_name := "Adam The Woo"
        channel_handle := "@TheDailyWoo"
        last_updated := none }
    videos := [] }

/-- `utils.load_videos_db`: missing file yields the placeholder database;
a readable file is parsed; a `JSONDecodeError` is re-raised as an
`Exception` (modelled as `Except.error` with the message prefix). -/
def load_videos_db (fs : FS) : Except String VideosDb :=
  match fs.primary with
  | none => .ok emptyDb
  | some (.valid db) => .ok db
  | some .corrupt => .error "Error parsing videos database"

/-- The timestamp update `data['channel_info']['last_updated'] =
datetime.now().isoformat()` performed inside `save_videos_db`; `now` is
the current instant rendered by `isoformat`, passed in explicitly. -/
def setLastUpdated (data : VideosDb) (now : String) : VideosDb :=
  { data with channel_info := { data.channel_info with last_updated := some now } }

/-- `utils.save_videos_db`: stamp `last_updated`, then overwrite the
primary file with the serialized database.  The function itself does not
touch the backup file. -/
def save_videos_db (fs : FS) (now : String) (data : VideosDb) : FS :=
  { fs with primary := some (.valid (setLastUpdated data now)) }

/-- `utils.create_backup`: if the file exists, copy it over the sibling
`.backup` path (`shutil.copy2`); otherwise do nothing. -/
def create_backup (fs : FS) : FS :=
  match fs.primary with
  | some fd => { fs with backup := some fd }
  | none => fs

/-- The save operation as the repository performs it at the sole call
site of `save_videos_db` (`fetch_videos.main`): back up the existing
database file if present, then write the new database. -/
def save (fs : FS) (now : String) (data : VideosDb) : FS :=
  save_videos_db (create_backup fs) now data

/-! ## Date extraction (`parse_date_from_title`)

`datetime.strptime` and `dateutil.parser.parse(..., fuzzy=True)` are
external library routines; they are modelled as oracle parameters that
either return a date or raise (`Except.error`).  For string arguments
`strptime` raises only `ValueError`; that contract appears as a
hypothesis where a claim needs it. -/

/-- A raised Python exception, as far as the handlers in this code can
tell one apart: a `ValueError` or anything else. -/
inductive PyErr where
  | valueError
  | other
deriving DecidableEq, Repr

/-- The strict-pattern loop of `parse_date_from_title`:
`for pattern in patterns: try: return strptime(title, pattern)
except ValueError: continue`.  Only `ValueError` is caught; any other
exception from the oracle propagates. -/
def tryPatterns (strptime : String → String → Except PyErr Date)
    (title : String) : List String → Except PyErr (Option Date)
  | [] => .ok none
  | p :: ps =>
    match strptime title p with
    | .ok d => .ok (some d)
    | .error .valueError => tryPatterns strptime title ps
    | .error .other => .error .other

/-- `utils.parse_date_from_title`: try each configured strict pattern in
order against the whole title; if none matches, fall back to the fuzzy
`dateutil` scan, whose failures are swallowed by a bare `except`; return
`none` when both stages fail. -/
def parse_date_from_title (strptime : String → String → Except PyErr Date)
    (fuzzyParse : String → Except PyErr Date)
    (patterns : List String) (title : String) : Except PyErr (Option Date) :=
  match tryPatterns strptime title patterns with
  | .error e => .error e
  | .ok (some d) => .ok (some d)
  | .ok none =>
    match fuzzyParse title with
    | .ok d => .ok (some d)
    | .error _ => .ok none

/-- The Date Extractor contract as the specification states it (§4.1):
strict patterns in order, first success wins; then, only when
`fuzzy_enabled` is set, a permissive fuzzy scan; otherwise absent.
This is the spec-side definition used to compare the code against the
claimed `fuzzy_enabled` toggle. -/
def extractSpec (strptime : String → String → Except PyErr Date)
    (fuzzyParse : String → Except PyErr Date)
    (patterns : List String) (fuzzy_enabled : Bool) (title : String) : Option Date :=
  match patterns.findSome? (fun p => (strptime title p).toOption) with
  | some d => some d
  | none => if fuzzy_enabled then (fuzzyParse title).toOption else none

/-! ## Ingestion (`fetch_all_videos_from_playlist`)

The external video-hosting collaborator supplies raw playlist items; the
pages of the pagination loop are modelled, already concatenated in
pagination order, as one list of raw entries. -/

/-- A raw playlist item as the loop body reads it from the API response:
`snippet['resourceId']['videoId']`, `snippet['title']`,
`snippet.get('description', '')`, `snippet['publishedAt']`,
`snippet['thumbnails'].get('high', {}).get('url', '')`. -/
structure RawEntry where
  videoId : String
  title : String
  rawDescription : Option String
  publishedAt : String
  thumbnailHigh : Option String
deriving DecidableEq, Repr

/-- Zero-padded two-digit rendering, as `%m`/`%d` in `strftime`. -/
def pad2 (n : Nat) : String :=
  if n < 10 then "0" ++ toString n else toString n

/-- Zero-padded four-digit rendering, as `%Y` in `strftime`. -/
def pad4 (n : Nat) : String :=
  if n < 10 then "000" ++ toString n
  else if n < 100 then "00" ++ toString n
  else if n < 1000 then "0" ++ toString n
  else toString n

/-- `date_obj.strftime('%Y-%m-%d')`. -/
def Date.strftimeYMD (d : Date) : String :=
  pad4 d.year ++ "-" ++ pad2 d.month ++ "-" ++ pad2 d.day

/-- The per-item body of the ingestion loop: skip the removed/private
sentinel titles, otherwise build the catalogue record, taking
`recording_date` from the title parse when it succeeds, else from
`publishedAt[:10]` when the `use_upload_date_fallback` policy is on,
else leaving it absent.  An exception escaping `parse_date_from_title`
propagates (the surrounding `try` catches only `HttpError`). -/
def processItem (strptime : String → String → Except PyErr Date)
    (fuzzyParse : String → Except PyErr Date)
    (patterns : List String) (fallback : Bool)
    (item : RawEntry) : Except PyErr (Option Video) :=
  if item.title == "Private video" || item.title == "Deleted video" then .ok none
  else
    let upload_date := item.publishedAt.take 10
    match parse_date_from_title strptime fuzzyParse patterns item.title with
    | .error e => .error e
    | .ok res =>
      let recording_date :=
        match res with
        | some d => some d.strftimeYMD
        | none => if fallback then some upload_date else none
      .ok (some
        { video_id := item.videoId
          title := item.title
          description := item.rawDescription.getD ""
          upload_date := upload_date
          recording_date := recording_date
          url := "https://www.youtube.com/watch?v=" ++ item.videoId
          thumbnail := item.thumbnailHigh.getD "" })

/-- The `videos.append(...)` accumulation across the items of all pages. -/
def fetchLoop (strptime : String → String → Except PyErr Date)
    (fuzzyParse : String → Except PyErr Date)
    (patterns : List String) (fallback : Bool)
    (acc : List Video) : List RawEntry → Except PyErr (List Video)
  | [] => .ok acc
  | it :: its =>
    match processItem strptime fuzzyParse patterns fallback it with
    | .error e => .error e
    | .ok none => fetchLoop strptime fuzzyParse patterns fallback acc its
    | .ok (some v) => fetchLoop strptime fuzzyParse patterns fallback (acc ++ [v]) its

/-- `fetch_videos.fetch_all_videos_from_playlist`, with the paginated
response items supplied, concatenated in pagination order, by the
external collaborator. -/
def fetch_all_videos_from_playlist
    (strptime : String → String → Except PyErr Date)
    (fuzzyParse : String → Except PyErr Date)
    (patterns : List String) (fallback : Bool)
    (items : List RawEntry) : Except PyErr (List Video) :=
  fetchLoop strptime fuzzyParse patterns fallback [] items

/-- The per-entry ingestion transform as the specification describes it
(§4.3): drop sentinel-titled entries, attach the extracted date, else the
upload-date fallback, else leave the date absent.  Used to state that the
imperative loop is this pure transform mapped over the input. -/
def ingestEntrySpec (strptime : String → String → Except PyErr Date)
    (fuzzyParse : String → Except PyErr Date)
    (patterns : List String) (fallback : Bool)
    (item : RawEntry) : Option Video :=
  if item.title = "Private video" ∨ item.title = "Deleted video" then none
  else some
    { video_id := item.videoId
      title := item.title
      description := item.rawDescription.getD ""
      upload_date := item.publishedAt.take 10
      recording_date :=
        match extractSpec strptime fuzzyParse patterns true item.title with
        | some d => some d.strftimeYMD
        | none => if fallback then some (item.publishedAt.take 10) else none
      url := "https://www.youtube.com/watch?v=" ++ item.videoId
      thumbnail := item.thumbnailHigh.getD "" }

/-! ## Concrete data for witnesses and the specification's worked example -/

/-- A catalogue entry recorded on 2020-01-04. -/
def vid2020 : Video :=
  { video_id := "id2020"
    title := "1/4/20 FIRST WOO OF THE YEAR"
    description := ""
    upload_date := "2020-01-05"
    recording_date := some "2020-01-04"
    url := "https://www.youtube.com/watch?v=id2020"
    thumbnail := "" }

/-- A catalogue entry recorded on 2022-01-04. -/
def vid2022 : Video :=
  { video_id := "id2022"
    title := "1/4/22 BACK ON THE ROAD"
    description := ""
    upload_date := "2022-01-04"
    recording_date := some "2022-01-04"
    url := "https://www.youtube.com/watch?v=id2022"
    thumbnail := "" }

/-- A catalogue entry with no recording date. -/
def vidNoDate : Video :=
  { video_id := "idnone"
    title := "Just a fun day!"
    description := ""
    upload_date := "2021-06-01"
    recording_date := none
    url := "https://www.youtube.com/watch?v=idnone"
    thumbnail := "" }

/-- A small catalogue holding the specification's worked example, with the
2022 entry stored before the 2020 entry so that the matcher's sort has to
reorder them. -/
def exDb2 : VideosDb :=
  { channel_info := emptyDb.channel_info
    videos := [vid2022, vidNoDate, vid2020] }

/-- Oracle modelling `datetime.strptime` on a title that matches no
configured pattern: it raises `ValueError`. -/
def strptimeNoMatch : String → String → Except PyErr Date :=
  fun _ _ => .error .valueError

/-- Oracle modelling a fuzzy scan that fails (raises). -/
def fuzzyFails : String → Except PyErr Date :=
  fun _ => .error .other

/-- Oracle modelling a fuzzy scan that finds 2019-03-14 in the title. -/
def fuzzyFinds : String → Except PyErr Date :=
  fun _ => .ok ⟨2019, 3, 14⟩

/-- A raw playlist entry for a removed video (sentinel title). -/
def rawPrivate : RawEntry :=
  { videoId := "gone", title := "Private video", rawDescription := none
    publishedAt := "2021-05-01T12:00:00Z", thumbnailHigh := none }

/-- A raw playlist entry for an ordinary video. -/
def rawKept : RawEntry :=
  { videoId := "keep1", title := "Just a fun day!", rawDescription := some "a walk"
    publishedAt := "2021-06-01T09:30:00Z", thumbnailHigh := some "http://img" }

/-! ## Auxiliary lemmas -/

theorem matchLoop_eq (month day : Nat) :
    ∀ (l : List Video) (acc : List Video),
      matchLoop month day acc l = acc ++ l.filter (matchesDate month day)
  | [], acc => by simp [matchLoop]
  | v :: vs, acc => by
    by_cases hv : matchesDate month day v
    · simp [matchLoop, hv, matchLoop_eq month day vs, List.filter_cons]
    · simp [matchLoop, hv, matchLoop_eq month day vs, List.filter_cons]

theorem get_videos_for_date_eq (db : VideosDb) (month day : Nat) :
    get_videos_for_date db month day =
      (db.videos.filter (matchesDate month day)).mergeSort keyLe := by
  unfold get_videos_for_date
  rw [matchLoop_eq, List.nil_append]

theorem matchLoopSt_eq (month day : Nat) :
    ∀ (l : List Video) (st : VideosDb) (acc : List Video),
      matchLoopSt month day (st, acc) l = (st, matchLoop month day acc l)
  | [], st, acc => rfl
  | v :: vs, st, acc => by
    by_cases hv : matchesDate month day v
    · simp [matchLoopSt, matchLoop, hv, matchLoopSt_eq month day vs]
    · simp [matchLoopSt, matchLoop, hv, matchLoopSt_eq month day vs]

theorem isDigitChar_le {c : Char} (h : isDigitChar c = true) :
    48 ≤ c.toNat ∧ c.toNat ≤ 57 := by
  simpa [isDigitChar, Bool.and_eq_true, decide_eq_true_eq] using h

theorem chListLe_cons_iff (a b : Char) (as bs : List Char) :
    chListLe (a :: as) (b :: bs) = true ↔
      a.toNat < b.toNat ∨ (a.toNat = b.toNat ∧ chListLe as bs = true) := by
  simp only [chListLe]
  split_ifs with h1 h2
  · simp [h1]
  · simp only [false_iff]
    rintro (h | ⟨he, _⟩) <;> omega
  · have he : a.toNat = b.toNat := by omega
    simp [he]

theorem chListLe_refl : ∀ l : List Char, chListLe l l = true
  | [] => rfl
  | a :: as => by
    rw [chListLe_cons_iff]
    exact Or.inr ⟨rfl, chListLe_refl as⟩

theorem chListLe_trans :
    ∀ l₁ l₂ l₃ : List Char,
      chListLe l₁ l₂ = true → chListLe l₂ l₃ = true → chListLe l₁ l₃ = true
  | [], _, _, _, _ => by simp [chListLe]
  | a :: as, [], _, h₁, _ => by simp [chListLe] at h₁
  | a :: as, b :: bs, [], _, h₂ => by simp [chListLe] at h₂
  | a :: as, b :: bs, c :: cs, h₁, h₂ => by
    rw [chListLe_cons_iff] at h₁ h₂ ⊢
    rcases h₁ with h | ⟨he, hr⟩ <;> rcases h₂ with h' | ⟨he', hr'⟩
    · exact Or.inl (Nat.lt_trans h h')
    · exact Or.inl (he' ▸ h)
    · exact Or.inl (he ▸ h')
    · exact Or.inr ⟨he.trans he', chListLe_trans as bs cs hr hr'⟩

theorem chListLe_total :
    ∀ l₁ l₂ : List Char, (chListLe l₁ l₂ || chListLe l₂ l₁) = true
  | [], l₂ => by simp [chListLe]
  | a :: as, [] => by simp [chListLe]
  | a :: as, b :: bs => by
    simp only [chListLe_cons_iff, Bool.or_eq_true, decide_eq_true_eq] at *
    rcases Nat.lt_trichotomy a.toNat b.toNat with h | h | h
    · exact Or.inl (Or.inl h)
    · rcases Bool.or_eq_true_iff.mp (chListLe_total as bs) with hr | hr
      · exact Or.inl (Or.inr ⟨h, hr⟩)
      · exact Or.inr (Or.inr ⟨h.symm, hr⟩)
    · exact Or.inr (Or.inl h)

theorem chListLe_of_forall₂ {l₁ l₂ : List Char}
    (h : List.Forall₂ (fun a b => a.toNat = b.toNat) l₁ l₂) :
    chListLe l₁ l₂ = true := by
  induction h with
  | nil => rfl
  | cons h _ ih => exact (chListLe_cons_iff _ _ _ _).mpr (Or.inr ⟨h, ih⟩)

theorem keyLe_trans_videos (a b c : Video)
    (h₁ : keyLe a b = true) (h₂ : keyLe b c = true) : keyLe a c = true :=
  chListLe_trans _ _ _ h₁ h₂

theorem keyLe_total_videos (a b : Video) : (keyLe a b || keyLe b a) = true :=
  chListLe_total _ _

theorem parseChars_shape {l : List Char} {d : Date} (h : parseChars l = some d) :
    ∃ y1 y2 y3 y4 m1 m2 d1 d2 : Char,
      l = [y1, y2, y3, y4, '-', m1, m2, '-', d1, d2] ∧
      isDigitChar y1 = true ∧ isDigitChar y2 = true ∧
      isDigitChar y3 = true ∧ isDigitChar y4 = true ∧
      isDigitChar m1 = true ∧ isDigitChar m2 = true ∧
      isDigitChar d1 = true ∧ isDigitChar d2 = true ∧
      d.year = dval y1 * 1000 + dval y2 * 100 + dval y3 * 10 + dval y4 ∧
      d.month = dval m1 * 10 + dval m2 ∧
      d.day = dval d1 * 10 + dval d2 ∧ d.valid = true := by
  unfold parseChars at h
  split at h
  case h_2 => exact absurd h (by simp)
  case h_1 y1 y2 y3 y4 h1 m1 m2 h2 d1 d2 =>
    split_ifs at h with hcond hval
    simp only [Bool.and_eq_true, beq_iff_eq] at hcond
    obtain ⟨⟨⟨⟨⟨⟨⟨⟨⟨hy1, hy2⟩, hy3⟩, hy4⟩, hh1⟩, hm1⟩, hm2⟩, hh2⟩, hd1⟩, hd2⟩ := hcond
    obtain rfl := Option.some.inj h
    subst hh1; subst hh2
    exact ⟨y1, y2, y3, y4, m1, m2, d1, d2, rfl, hy1, hy2, hy3, hy4,
      hm1, hm2, hd1, hd2, rfl, rfl, rfl, hval⟩

theorem twoDigit_toNat_eq {c1 c2 e1 e2 : Char}
    (h1 : isDigitChar c1 = true) (h2 : isDigitChar c2 = true)
    (h3 : isDigitChar e1 = true) (h4 : isDigitChar e2 = true)
    (h : dval c1 * 10 + dval c2 = dval e1 * 10 + dval e2) :
    c1.toNat = e1.toNat ∧ c2.toNat = e2.toNat := by
  obtain ⟨a1, a2⟩ := isDigitChar_le h1
  obtain ⟨b1, b2⟩ := isDigitChar_le h2
  obtain ⟨p1, p2⟩ := isDigitChar_le h3
  obtain ⟨q1, q2⟩ := isDigitChar_le h4
  unfold dval at h
  omega

theorem chListLe_year_block
    {a1 a2 a3 a4 b1 b2 b3 b4 : Char} {ta tb : List Char}
    (ha1 : isDigitChar a1 = true) (ha2 : isDigitChar a2 = true)
    (ha3 : isDigitChar a3 = true) (ha4 : isDigitChar a4 = true)
    (hb1 : isDigitChar b1 = true) (hb2 : isDigitChar b2 = true)
    (hb3 : isDigitChar b3 = true) (hb4 : isDigitChar b4 = true)
    (ht : chListLe ta tb = true) :
    chListLe (a1 :: a2 :: a3 :: a4 :: ta) (b1 :: b2 :: b3 :: b4 :: tb) = true ↔
      dval a1 * 1000 + dval a2 * 100 + dval a3 * 10 + dval a4 ≤
        dval b1 * 1000 + dval b2 * 100 + dval b3 * 10 + dval b4 := by
  obtain ⟨la1, ra1⟩ := isDigitChar_le ha1
  obtain ⟨la2, ra2⟩ := isDigitChar_le ha2
  obtain ⟨la3, ra3⟩ := isDigitChar_le ha3
  obtain ⟨la4, ra4⟩ := isDigitChar_le ha4
  obtain ⟨lb1, rb1⟩ := isDigitChar_le hb1
  obtain ⟨lb2, rb2⟩ := isDigitChar_le hb2
  obtain ⟨lb3, rb3⟩ := isDigitChar_le hb3
  obtain ⟨lb4, rb4⟩ := isDigitChar_le hb4
  simp only [chListLe_cons_iff]
  unfold dval
  constructor
  · rintro (h | ⟨e1, h | ⟨e2, h | ⟨e3, h | ⟨e4, _⟩⟩⟩⟩) <;> omega
  · intro hle
    rcases Nat.lt_trichotomy a1.toNat b1.toNat with h1 | h1 | h1
    · exact Or.inl h1
    · refine Or.inr ⟨h1, ?_⟩
      rcases Nat.lt_trichotomy a2.toNat b2.toNat with h2 | h2 | h2
      · exact Or.inl h2
      · refine Or.inr ⟨h2, ?_⟩
        rcases Nat.lt_trichotomy a3.toNat b3.toNat with h3 | h3 | h3
        · exact Or.inl h3
        · refine Or.inr ⟨h3, ?_⟩
          rcases Nat.lt_trichotomy a4.toNat b4.toNat with h4 | h4 | h4
          · exact Or.inl h4
          · exact Or.inr ⟨h4, ht⟩
          · exact absurd hle (by omega)
        · exact absurd hle (by omega)
      · exact absurd hle (by omega)
    · exact absurd hle (by omega)

theorem matchesDate_iff {month day : Nat} {v : Video} :
    matchesDate month day v = true ↔
      ∃ s d, v.recording_date = some s ∧ fromisoformat s = some d ∧
        d.month = month ∧ d.day = day := by
  unfold matchesDate
  cases hv : v.recording_date with
  | none => simp
  | some s =>
    by_cases he : s.isEmpty = true
    · have hs : s = "" := (String.isEmpty_iff s).mp he
      subst hs
      have : fromisoformat "" = none := rfl
      simp [he, this]
    · cases hp : fromisoformat s with
      | none => simp [he, hp]
      | some d =>
        simp [he, hp, Bool.and_eq_true, decide_eq_true_eq]

theorem mem_get_videos_for_date {db : VideosDb} {month day : Nat} {v : Video} :
    v ∈ get_videos_for_date db month day ↔
      v ∈ db.videos ∧ matchesDate month day v = true := by
  rw [get_videos_for_date_eq, List.mem_mergeSort, List.mem_filter]

theorem keyLe_year_le {month day : Nat} {a b : Video}
    (ha : matchesDate month day a = true) (hb : matchesDate month day b = true)
    (hk : keyLe a b = true) : recYear a ≤ recYear b := by
  obtain ⟨sa, da, hsa, hpa, hma, hda⟩ := matchesDate_iff.mp ha
  obtain ⟨sb, db', hsb, hpb, hmb, hdb⟩ := matchesDate_iff.mp hb
  obtain ⟨ya1, ya2, ya3, ya4, ma1, ma2, da1, da2, hla, qy1, qy2, qy3, qy4,
    qm1, qm2, qd1, qd2, hyra, hmoa, hdya, _⟩ := parseChars_shape hpa
  obtain ⟨yb1, yb2, yb3, yb4, mb1, mb2, db1, db2, hlb, ry1, ry2, ry3, ry4,
    rm1, rm2, rd1, rd2, hyrb, hmob, hdyb, _⟩ := parseChars_shape hpb
  have hmoeq : dval ma1 * 10 + dval ma2 = dval mb1 * 10 + dval mb2 := by
    rw [← hmoa, ← hmob, hma, hmb]
  have hdyeq : dval da1 * 10 + dval da2 = dval db1 * 10 + dval db2 := by
    rw [← hdya, ← hdyb, hda, hdb]
  obtain ⟨hm1eq, hm2eq⟩ := twoDigit_toNat_eq qm1 qm2 rm1 rm2 hmoeq
  obtain ⟨hd1eq, hd2eq⟩ := twoDigit_toNat_eq qd1 qd2 rd1 rd2 hdyeq
  have htail : chListLe ['-', ma1, ma2, '-', da1, da2] ['-', mb1, mb2, '-', db1, db2] = true := by
    refine chListLe_of_forall₂ ?_
    exact .cons rfl (.cons hm1eq (.cons hm2eq (.cons rfl (.cons hd1eq (.cons hd2eq .nil)))))
  have hkey : chListLe sa.toList sb.toList = true := by
    have : recKey a = sa := by simp [recKey, hsa]
    have hb' : recKey b = sb := by simp [recKey, hsb]
    unfold keyLe at hk
    rwa [this, hb'] at hk
  rw [hla, hlb] at hkey
  have hyle := (chListLe_year_block qy1 qy2 qy3 qy4 ry1 ry2 ry3 ry4 htail).mp hkey
  have hra : recYear a = da.year := by simp [recYear, hsa, hpa]
  have hrb : recYear b = db'.year := by simp [recYear, hsb, hpb]
  rw [hra, hrb, hyrb, hyra]
  exact hyle

/-! ## Claims -/

/-- C1: for every catalogue and every valid query month (1..12) and day
(1..31), `get_videos_for_date` returns exactly those records that have a
present, syntactically valid `recording_date` whose month and day equal
the query; records with absent or malformed stored dates are
non-matching rather than raising, and a query for month=2, day=29 never
returns a record dated Feb 28 or Mar 1. -/
theorem calendar_matcher_returns_exactly_month_day_matches
    (db : VideosDb) (month day : Nat)
    (hm : 1 ≤ month ∧ month ≤ 12) (hd : 1 ≤ day ∧ day ≤ 31) :
    (∀ v : Video, v ∈ get_videos_for_date db month day ↔
        v ∈ db.videos ∧ ∃ s d, v.recording_date = some s ∧
          fromisoformat s = some d ∧ d.month = month ∧ d.day = day) ∧
    (∀ v ∈ get_videos_for_date db 2 29, ∀ s d, v.recording_date = some s →
        fromisoformat s = some d →
          (d.month = 2 ∧ d.day = 29) ∧
          ¬(d.month = 2 ∧ d.day = 28) ∧ ¬(d.month = 3 ∧ d.day = 1)) := by
  have key : ∀ (m' d' : Nat) (v : Video),
      v ∈ get_videos_for_date db m' d' ↔
        v ∈ db.videos ∧ ∃ s d, v.recording_date = some s ∧
          fromisoformat s = some d ∧ d.month = m' ∧ d.day = d' := by
    intro m' d' v
    simp only [mem_get_videos_for_date, matchesDate_iff]
  refine ⟨key month day, ?_⟩
  intro v hv s d hs hp
  obtain ⟨-, s', d', hs', hp', hm', hd'⟩ := (key 2 29 v).mp hv
  rw [hs] at hs'
  obtain rfl := Option.some.inj hs'
  rw [hp] at hp'
  obtain rfl := Option.some.inj hp'
  refine ⟨⟨hm', hd'⟩, ?_, ?_⟩ <;> omega

/-- C1 witness: in the example catalogue, the entry recorded on
2020-01-04 is returned by the query (month=1, day=4). -/
theorem calendar_matcher_returns_exactly_month_day_matches_witness :
    vid2020 ∈ get_videos_for_date exDb2 1 4 :=
  ((calendar_matcher_returns_exactly_month_day_matches exDb2 1 4
      (by decide) (by decide)).1 vid2020).mpr
    ⟨by decide, "2020-01-04", ⟨2020, 1, 4⟩, rfl, by decide, rfl, rfl⟩

/-- C10: the Calendar Matcher is a pure query: with the mutable database
threaded as explicit state, the state after the call equals the state
before it, and the returned list is the pure function of the database. -/
theorem calendar_matcher_pure_query (db : VideosDb) (month day : Nat)
    (hm : 1 ≤ month ∧ month ≤ 12) (hd : 1 ≤ day ∧ day ≤ 31) :
    (get_videos_for_date_st db month day).1 = db ∧
    (get_videos_for_date_st db month day).2 = get_videos_for_date db month day := by
  unfold get_videos_for_date_st get_videos_for_date
  rw [matchLoopSt_eq]
  exact ⟨rfl, rfl⟩

/-- C10 witness: on the example catalogue the query leaves the database
state unchanged. -/
theorem calendar_matcher_pure_query_witness :
    (get_videos_for_date_st exDb2 1 4).1 = exDb2 :=
  (calendar_matcher_pure_query exDb2 1 4 (by decide) (by decide)).1

/-- C4: saving a catalogue and then loading yields a catalogue whose
`videos` sequence is element-wise equal to the one saved; only
`channel_info.last_updated` is rewritten by the save. -/
theorem save_then_load_roundtrip (fs : FS) (now : String) (data : VideosDb) :
    load_videos_db (save fs now data) = .ok (setLastUpdated data now) ∧
    (setLastUpdated data now).videos = data.videos ∧
    (setLastUpdated data now).channel_info =
      { data.channel_info with last_updated := some now } :=
  ⟨rfl, rfl, rfl⟩

/-- C5: whenever the save operation runs and a prior snapshot exists at
the primary location, that snapshot's content becomes the sibling backup
(overwriting any previous backup) before the primary is overwritten; with
no prior snapshot the backup is untouched; and two saves in succession
leave exactly the first save's content in the backup and the second
save's content in the primary. -/
theorem save_backs_up_prior_snapshot :
    (∀ (fs : FS) (now : String) (data : VideosDb) (fd : FileData),
        fs.primary = some fd → (save fs now data).backup = some fd) ∧
    (∀ (fs : FS) (now : String) (data : VideosDb),
        fs.primary = none → (save fs now data).backup = fs.backup) ∧
    (∀ (fs : FS) (now1 now2 : String) (d1 d2 : VideosDb),
        (save (save fs now1 d1) now2 d2).backup =
          some (.valid (setLastUpdated d1 now1)) ∧
        (save (save fs now1 d1) now2 d2).primary =
          some (.valid (setLastUpdated d2 now2))) := by
  refine ⟨?_, ?_, ?_⟩
  · intro fs now data fd h
    simp [save, save_videos_db, create_backup, h]
  · intro fs now data h
    simp [save, save_videos_db, create_backup, h]
  · intro fs now1 now2 d1 d2
    exact ⟨rfl, rfl⟩

/-- C5 witness: saving over an existing snapshot copies that snapshot to
the backup slot. -/
theorem save_backs_up_prior_snapshot_witness :
    (save (FS.mk (some (.valid emptyDb)) none) "t2" emptyDb).backup =
      some (.valid emptyDb) :=
  save_backs_up_prior_snapshot.1 (FS.mk (some (.valid emptyDb)) none) "t2"
    emptyDb (.valid emptyDb) rfl

/-- C6: loading when no persisted catalogue file exists returns, without
raising, the placeholder catalogue: empty `videos` and the placeholder
`channel_info`. -/
theorem load_missing_file_empty_catalogue (backup : Option FileData) :
    load_videos_db { primary := none, backup := backup } = .ok emptyDb ∧
    emptyDb.videos = [] ∧
    emptyDb.channel_info =
      { channel_id := ""
        channel_name := "Adam The Woo"
        channel_handle := "@TheDailyWoo"
        last_updated := none } :=
  ⟨rfl, rfl, rfl⟩

/-- C7: loading raises for a persisted file whose content cannot be
parsed, and does not raise for a missing file. -/
theorem load_corrupt_raises_missing_ok (backup : Option FileData) :
    (∃ e, load_videos_db { primary := some .corrupt, backup := backup } = .error e) ∧
    (∃ db, load_videos_db { primary := none, backup := backup } = .ok db) :=
  ⟨⟨"Error parsing videos database", rfl⟩, ⟨emptyDb, rfl⟩⟩

theorem tryPatterns_eq_findSome
    (strptime : String → String → Except PyErr Date)
    (h : ∀ t p, strptime t p ≠ .error .other) (title : String) :
    ∀ ps : List String,
      tryPatterns strptime title ps =
        .ok (ps.findSome? (fun p => (strptime title p).toOption))
  | [] => rfl
  | p :: ps => by
    simp only [tryPatterns, List.findSome?_cons]
    cases hs : strptime title p with
    | ok d => rfl
    | error e =>
      cases e with
      | valueError =>
        simp only [Except.toOption]
        exact tryPatterns_eq_findSome strptime h title ps
      | other => exact absurd hs (h title p)

theorem parse_eq_extractSpec
    (strptime : String → String → Except PyErr Date)
    (fuzzyParse : String → Except PyErr Date)
    (h : ∀ t p, strptime t p ≠ .error .other)
    (patterns : List String) (title : String) :
    parse_date_from_title strptime fuzzyParse patterns title =
      .ok (extractSpec strptime fuzzyParse patterns true title) := by
  unfold parse_date_from_title extractSpec
  rw [tryPatterns_eq_findSome strptime h title patterns]
  cases patterns.findSome? (fun p => (strptime title p).toOption) with
  | some d => rfl
  | none =>
    cases hf : fuzzyParse title with
    | ok d => simp [hf, Except.toOption]
    | error e => simp [hf, Except.toOption]

/-- C3 counterexample: the extractor has no toggle that disables the
fuzzy stage.  With the strict stage failing and the specification's
`fuzzy_enabled` flag set to false, the spec-side extractor answers
"absent" while the code still runs the fuzzy scan and returns the date it
finds. -/
theorem extractor_fuzzy_toggle_counterexample :
    parse_date_from_title strptimeNoMatch fuzzyFinds [] "Just a fun day!" =
      .ok (some ⟨2019, 3, 14⟩) ∧
    extractSpec strptimeNoMatch fuzzyFinds [] false "Just a fun day!" = none ∧
    parse_date_from_title strptimeNoMatch fuzzyFinds [] "Just a fun day!" ≠
      .ok (extractSpec strptimeNoMatch fuzzyFinds [] false "Just a fun day!") := by
  refine ⟨rfl, rfl, ?_⟩
  intro h
  rw [show extractSpec strptimeNoMatch fuzzyFinds [] false "Just a fun day!" = none
      from rfl] at h
  rw [show parse_date_from_title strptimeNoMatch fuzzyFinds [] "Just a fun day!" =
      .ok (some ⟨2019, 3, 14⟩) from rfl] at h
  exact Option.noConfusion (Except.ok.inj h)

/-- C3 (amended): the extractor tries each configured strict pattern in
the configured order against the whole title and the first one that
parses wins; the fuzzy scan is attempted exactly when no strict pattern
matched — fuzzy extraction is unconditionally enabled, there is no
configuration to disable it — and when both stages fail the result is
absent.  (Stated as: under the contract that `strptime` raises only
`ValueError`, the code equals the spec-side chain with the fuzzy stage
always on.) -/
theorem extractor_strict_then_fuzzy_chain
    (strptime : String → String → Except PyErr Date)
    (fuzzyParse : String → Except PyErr Date)
    (h : ∀ t p, strptime t p ≠ .error .other)
    (patterns : List String) (title : String) :
    parse_date_from_title strptime fuzzyParse patterns title =
      .ok (extractSpec strptime fuzzyParse patterns true title) :=
  parse_eq_extractSpec strptime fuzzyParse h patterns title

/-- C3 witness: with no pattern matching and the fuzzy oracle finding a
date, the code returns exactly what the always-fuzzy chain prescribes. -/
theorem extractor_strict_then_fuzzy_chain_witness :
    parse_date_from_title strptimeNoMatch fuzzyFinds ["%m/%d/%Y"] "Road Trip - 03/14/2019" =
      .ok (extractSpec strptimeNoMatch fuzzyFinds ["%m/%d/%Y"] true "Road Trip - 03/14/2019") :=
  extractor_strict_then_fuzzy_chain strptimeNoMatch fuzzyFinds
    (fun t p => by simp [strptimeNoMatch]) ["%m/%d/%Y"] "Road Trip - 03/14/2019"

/-- C8: the extractor never raises: the strict loop catches the
`ValueError` of every failed pattern and the fuzzy stage sits under a
bare `except`, so — given `strptime`'s contract of raising only
`ValueError` on string arguments — the function always returns either a
date or absent. -/
theorem extractor_never_raises
    (strptime : String → String → Except PyErr Date)
    (fuzzyParse : String → Except PyErr Date)
    (h : ∀ t p, strptime t p ≠ .error .other)
    (patterns : List String) (title : String) :
    ∃ r : Option Date,
      parse_date_from_title strptime fuzzyParse patterns title = .ok r :=
  ⟨extractSpec strptime fuzzyParse patterns true title,
    parse_eq_extractSpec strptime fuzzyParse h patterns title⟩

/-- C8 witness: no strict pattern matches and even the fuzzy oracle
raises; the call still returns (with "absent"). -/
theorem extractor_never_raises_witness :
    ∃ r : Option Date,
      parse_date_from_title strptimeNoMatch fuzzyFails ["%m/%d/%Y"] "Just a fun day!" = .ok r :=
  extractor_never_raises strptimeNoMatch fuzzyFails
    (fun t p => by simp [strptimeNoMatch]) ["%m/%d/%Y"] "Just a fun day!"

theorem processItem_eq
    (strptime : String → String → Except PyErr Date)
    (fuzzyParse : String → Except PyErr Date)
    (patterns : List String) (fallback : Bool)
    (h : ∀ t p, strptime t p ≠ .error .other) (it : RawEntry) :
    processItem strptime fuzzyParse patterns fallback it =
      .ok (ingestEntrySpec strptime fuzzyParse patterns fallback it) := by
  unfold processItem ingestEntrySpec
  by_cases hp : it.title = "Private video" ∨ it.title = "Deleted video"
  · have hb : (it.title == "Private video" || it.title == "Deleted video") = true := by
      rcases hp with hp | hp <;> simp [hp]
    rw [if_pos hb, if_pos hp]
  · have hb : (it.title == "Private video" || it.title == "Deleted video") = false := by
      push_neg at hp
      simp [hp.1, hp.2]
    rw [if_neg (by simp [hb]), if_neg hp,
      parse_eq_extractSpec strptime fuzzyParse h patterns it.title]

theorem fetchLoop_eq
    (strptime : String → String → Except PyErr Date)
    (fuzzyParse : String → Except PyErr Date)
    (patterns : List String) (fallback : Bool)
    (h : ∀ t p, strptime t p ≠ .error .other) :
    ∀ (its : List RawEntry) (acc : List Video),
      fetchLoop strptime fuzzyParse patterns fallback acc its =
        .ok (acc ++ its.filterMap (ingestEntrySpec strptime fuzzyParse patterns fallback))
  | [], acc => by simp [fetchLoop]
  | it :: its, acc => by
    simp only [fetchLoop, processItem_eq strptime fuzzyParse patterns fallback h it,
      List.filterMap_cons]
    cases hspec : ingestEntrySpec strptime fuzzyParse patterns fallback it with
    | none => simpa using fetchLoop_eq strptime fuzzyParse patterns fallback h its acc
    | some v =>
      simpa [List.append_assoc] using
        fetchLoop_eq strptime fuzzyParse patterns fallback h its (acc ++ [v])

/-- C9: ingestion excludes every entry whose title is a removed/private
sentinel ("Private video" or "Deleted video" never reach the catalogue);
each retained entry carries the extracted date when extraction succeeds,
else the upload date when the fallback policy is on, else no date; and
the output is the per-entry transform mapped over the input in pagination
order. -/
theorem ingestion_filters_sentinels_and_dates
    (strptime : String → String → Except PyErr Date)
    (fuzzyParse : String → Except PyErr Date)
    (patterns : List String) (fallback : Bool)
    (h : ∀ t p, strptime t p ≠ .error .other)
    (items : List RawEntry) :
    fetch_all_videos_from_playlist strptime fuzzyParse patterns fallback items =
      .ok (items.filterMap (ingestEntrySpec strptime fuzzyParse patterns fallback)) ∧
    (∀ v ∈ items.filterMap (ingestEntrySpec strptime fuzzyParse patterns fallback),
      v.title ≠ "Private video" ∧ v.title ≠ "Deleted video") ∧
    (∀ it ∈ items, it.title = "Private video" →
      ingestEntrySpec strptime fuzzyParse patterns fallback it = none) ∧
    (∀ it ∈ items, it.title ≠ "Private video" → it.title ≠ "Deleted video" →
      ∃ v, ingestEntrySpec strptime fuzzyParse patterns fallback it = some v ∧
        v.recording_date =
          (match extractSpec strptime fuzzyParse patterns true it.title with
           | some d => some d.strftimeYMD
           | none => if fallback then some (it.publishedAt.take 10) else none)) := by
  refine ⟨?_, ?_, ?_, ?_⟩
  · unfold fetch_all_videos_from_playlist
    rw [fetchLoop_eq strptime fuzzyParse patterns fallback h items []]
    simp
  · intro v hv
    obtain ⟨it, _, hit⟩ := List.mem_filterMap.mp hv
    unfold ingestEntrySpec at hit
    by_cases hp : it.title = "Private video" ∨ it.title = "Deleted video"
    · rw [if_pos hp] at hit
      exact absurd hit (by simp)
    · rw [if_neg hp] at hit
      push_neg at hp
      obtain rfl := Option.some.inj hit
      exact hp
  · intro it _ hp
    unfold ingestEntrySpec
    rw [if_pos (Or.inl hp)]
  · intro it _ hp1 hp2
    unfold ingestEntrySpec
    rw [if_neg (by rintro (hc | hc) <;> [exact hp1 hc; exact hp2 hc])]
    exact ⟨_, rfl, rfl⟩

/-- C9 witness: a two-entry page whose first entry is titled
"Private video" yields a catalogue holding only the second entry, dated
by the upload-date fallback. -/
theorem ingestion_filters_sentinels_and_dates_witness :
    fetch_all_videos_from_playlist strptimeNoMatch fuzzyFails [] true [rawPrivate, rawKept] =
      .ok ([rawPrivate, rawKept].filterMap (ingestEntrySpec strptimeNoMatch fuzzyFails [] true)) ∧
    [rawPrivate, rawKept].filterMap (ingestEntrySpec strptimeNoMatch fuzzyFails [] true) =
      [{ video_id := "keep1"
         title := "Just a fun day!"
         description := "a walk"
         upload_date := "2021-06-01"
         recording_date := some "2021-06-01"
         url := "https://www.youtube.com/watch?v=keep1"
         thumbnail := "http://img" }] :=
  ⟨(ingestion_filters_sentinels_and_dates strptimeNoMatch fuzzyFails [] true
      (fun t p => by simp [strptimeNoMatch]) [rawPrivate, rawKept]).1,
    by rfl⟩

unseal List.merge List.mergeSort in
theorem exDb2_matcher_eval : get_videos_for_date exDb2 1 4 = [vid2020, vid2022] := by decide

theorem matcher_stable (db : VideosDb) (month day : Nat) (k : String) :
    (get_videos_for_date db month day).filter (fun v => recKey v == k) =
      (db.videos.filter (matchesDate month day)).filter (fun v => recKey v == k) := by
  rw [get_videos_for_date_eq]
  set F := db.videos.filter (matchesDate month day) with hF
  have hsub0 : (F.filter fun v => recKey v == k).Sublist F := List.filter_sublist F
  have hpw : (F.filter fun v => recKey v == k).Pairwise (fun a b => keyLe a b = true) := by
    refine List.pairwise_of_forall_mem_list ?_
    intro a ha b hb
    have ha' : recKey a = k := by
      have h0 := List.of_mem_filter ha
      simpa using h0
    have hb' : recKey b = k := by
      have h0 := List.of_mem_filter hb
      simpa using h0
    unfold keyLe
    rw [ha', hb']
    exact chListLe_refl _
  have hsub : (F.filter fun v => recKey v == k).Sublist (F.mergeSort keyLe) :=
    List.sublist_mergeSort keyLe_trans_videos keyLe_total_videos hpw hsub0
  have hsub2 : (F.filter fun v => recKey v == k).Sublist
      ((F.mergeSort keyLe).filter fun v => recKey v == k) := by
    have h2 := hsub.filter (fun v => recKey v == k)
    rwa [List.filter_filter,
      show (fun a => ((recKey a == k) && (recKey a == k))) = (fun v => recKey v == k)
        from funext (fun a => Bool.and_self _)] at h2
  have hperm : ((F.mergeSort keyLe).filter fun v => recKey v == k).Perm
      (F.filter fun v => recKey v == k) := (List.mergeSort_perm F keyLe).filter _
  exact (hsub2.eq_of_length hperm.length_eq.symm).symm

/-- C2: the matcher's result is sorted ascending by the full
`recording_date` key (hence oldest year first), records with equal
`recording_date` are left in catalogue order (the sort is stable), and on
the worked example the 2020-01-04 entry is returned before the
2022-01-04 entry even though it is stored after it. -/
theorem calendar_matcher_sorted_oldest_first_stable
    (db : VideosDb) (month day : Nat)
    (hm : 1 ≤ month ∧ month ≤ 12) (hd : 1 ≤ day ∧ day ≤ 31) :
    List.Pairwise (fun a b => keyLe a b = true) (get_videos_for_date db month day) ∧
    List.Pairwise (fun a b => recYear a ≤ recYear b) (get_videos_for_date db month day) ∧
    (∀ k : String,
      (get_videos_for_date db month day).filter (fun v => recKey v == k) =
        (db.videos.filter (matchesDate month day)).filter (fun v => recKey v == k)) ∧
    get_videos_for_date exDb2 1 4 = [vid2020, vid2022] := by
  have hsorted : List.Pairwise (fun a b => keyLe a b = true)
      (get_videos_for_date db month day) := by
    rw [get_videos_for_date_eq]
    exact List.sorted_mergeSort keyLe_trans_videos keyLe_total_videos _
  refine ⟨hsorted, ?_, fun k => matcher_stable db month day k, exDb2_matcher_eval⟩
  refine hsorted.imp_of_mem ?_
  intro a b ha hb hk
  have ha' := (mem_get_videos_for_date.mp ha).2
  have hb' := (mem_get_videos_for_date.mp hb).2
  exact keyLe_year_le ha' hb' hk

/-- C2 witness: on the example catalogue, the two January 4 entries come
back oldest year first. -/
theorem calendar_matcher_sorted_oldest_first_stable_witness :
    get_videos_for_date exDb2 1 4 = [vid2020, vid2022] :=
  (calendar_matcher_sorted_oldest_first_stable exDb2 1 4 (by decide) (by decide)).2.2.2

end ATW
